import Mathlib

/-!
Shallow embedding of `ajaykarpur/reinforcement-learning-trader`
(`src/environment.py` and `src/agent.py`).

Prices and quantities are modelled as rationals.  Python exceptions are
modelled with `Except PyError`; a method body that is `pass` returns
`Except.ok none`.  The numpy matrices appearing in `Market._reset` are
modelled as lists of rows (`List (List ℚ)`), together with the numpy
operations the source uses: `np.rot90`, `np.flipud` and
`np.concatenate(..., axis=1)`.
-/

/-- Python exceptions that the modelled code can raise. -/
inductive PyError where
  | notImplementedError
  | valueError (msg : String)
deriving DecidableEq, Repr

/-- An exchange order book as returned by `exchange.fetch_order_book(symbol)`:
lists of `[price, quantity]` pairs for bids and for asks. -/
structure OrderBook where
  bids : List (ℚ × ℚ)
  asks : List (ℚ × ℚ)
deriving DecidableEq, Repr

/-- The ccxt exchange object, modelled by its responses: the value returned by
`load_markets()` (kept as an abstract list of market names, the program never
inspects it) and the order book returned by `fetch_order_book` per symbol. -/
structure Exchange where
  markets_result : List String
  order_book : String → OrderBook

def Exchange.load_markets (ex : Exchange) : List String :=
  ex.markets_result

def Exchange.fetch_order_book (ex : Exchange) (symbol : String) : OrderBook :=
  ex.order_book symbol

/-- The exchange-API calls the program can make, recorded as a trace. -/
inductive ExchangeCall where
  | load_markets
  | fetch_order_book (symbol : String)
deriving DecidableEq, Repr

/-- `ExchangeCall.is_fetch_order_book c` holds exactly for `fetch_order_book` calls. -/
def ExchangeCall.is_fetch_order_book : ExchangeCall → Bool
  | .load_markets => false
  | .fetch_order_book _ => true

/-- Column `j` of a matrix given as a list of rows (default `0` outside the
matrix; the embedded code only reads columns that exist). -/
def colAt (m : List (List ℚ)) (j : ℕ) : List ℚ :=
  m.map (fun r => r.getD j 0)

/-- Matrix transpose for a rectangular list-of-rows matrix (the number of
columns is read off the first row, as numpy does for a 2-D array). -/
def npTranspose (m : List (List ℚ)) : List (List ℚ) :=
  (List.range (m.headD []).length).map (colAt m)

/-- `np.flipud`: reverse the order of the rows. -/
def np.flipud (m : List (List ℚ)) : List (List ℚ) :=
  m.reverse

/-- `np.rot90(m, k)`: rotate the matrix by `k` quarter turns counterclockwise.
`np.rot90(m, 1)` is `flipud` of the transpose; `np.rot90(m, 3)` is the
transpose of `flipud m`. -/
def np.rot90 (m : List (List ℚ)) (k : ℕ) : List (List ℚ) :=
  match k % 4 with
  | 0 => m
  | 1 => (npTranspose m).reverse
  | 2 => (m.reverse).map List.reverse
  | _ => npTranspose m.reverse

/-- `np.concatenate((a, b), axis=1)` for two matrices with the same number of
rows: append the rows pointwise. -/
def np.concatenate_axis1 (a b : List (List ℚ)) : List (List ℚ) :=
  List.zipWith (· ++ ·) a b

/-- The action space of the `Market` environment (`OrderSpace.__init__`). -/
structure OrderSpace where
  max_amount : ℚ
deriving DecidableEq, Repr

/-- `OrderSpace.side_sign = {'buy': -1, 'sell': 1}`. -/
def OrderSpace.side_sign : List (String × ℚ) :=
  [("buy", -1), ("sell", 1)]

/-- An element of the heterogeneous Python list returned by
`OrderSpace.sample` (bool, str or float entries). -/
inductive SampleElem where
  | boolVal (b : Bool)
  | strVal (s : String)
  | numVal (q : ℚ)
deriving DecidableEq, Repr

/-- The underlying random draws consumed by one call of `OrderSpace.sample`:
three `np.random.choice` draws over two-element lists (modelled as the chosen
index), the `np.random.uniform(low=0, high=max_amount)` draw (numpy computes
`low + (high-low)*u` with `u` drawn from `[0,1)`, so the draw is the `u`), and
the `np.random.random_sample()` draw in `[0,1)`. -/
structure SampleDraws where
  choice_place_order : Bool
  choice_type : Bool
  choice_side : Bool
  uniform_amount : ℚ
  random_sample : ℚ
deriving DecidableEq, Repr

/-- `OrderSpace.sample`: draw `place_order`, `type`, `side`, `amount` and
`price` and return them as a five-element list.  `price` is
`side_sign[side]*(1-np.random.random_sample())`. -/
def OrderSpace.sample (sp : OrderSpace) (d : SampleDraws) : List SampleElem :=
  let place_order := d.choice_place_order
  let type := if d.choice_type then "market" else "limit"
  let side := if d.choice_side then "buy" else "sell"
  let amount := sp.max_amount * d.uniform_amount
  let price := ((OrderSpace.side_sign.lookup side).getD 0) * (1 - d.random_sample)
  [.boolVal place_order, .strVal type, .strVal side, .numVal amount, .numVal price]

/-- `OrderSpace.contains`: `raise NotImplementedError`. -/
def OrderSpace.contains (_sp : OrderSpace) (_x : List SampleElem) :
    Except PyError Bool :=
  .error .notImplementedError

/-- `OrderSpace.to_jsonable`: `raise NotImplementedError`. -/
def OrderSpace.to_jsonable (_sp : OrderSpace) (_sample_n : List (List SampleElem)) :
    Except PyError String :=
  .error .notImplementedError

/-- `OrderSpace.from_jsonable`: `raise NotImplementedError`. -/
def OrderSpace.from_jsonable (_sp : OrderSpace) (_sample_n : String) :
    Except PyError (List (List SampleElem)) :=
  .error .notImplementedError

/-- The `Market` environment object: its attributes as assigned by
`Market.__init__`, `_seed` and `_reset` (the `observation_space` Box, whose
bounds involve `np.inf` and which no claim touches, is not carried). -/
structure Market where
  symbol : String
  markets : List String
  max_amount : ℚ
  action_space : OrderSpace
  np_random : ℕ
  state : List (List ℚ)
deriving DecidableEq, Repr

/-- Modelled from the spec: gym's `seeding.np_random` (the "generic
environment-seeding call") is not part of this repository.  Per the spec and
the `_seed` docstring it builds a random number generator from the seed and
returns it together with the seed actually used; with a provided (non-None)
seed that seed itself is used, with `None` a fresh entropy value is used.  The
generator is identified by its seed. -/
def seeding.np_random (seed : Option ℕ) (entropy : ℕ) : ℕ × ℕ :=
  match seed with
  | some s => (s, s)
  | none => (entropy, entropy)

/-- `Market._seed(seed)`: `self.np_random, seed = seeding.np_random(seed);
return [seed]`. -/
def Market.seed (m : Market) (seed : Option ℕ) (entropy : ℕ) :
    List ℕ × Market :=
  let p := seeding.np_random seed entropy
  ([p.2], { m with np_random := p.1 })

/-- The array computation of `Market._reset` (lines 156-173 of
`environment.py`), as a function of the fetched order book.  When either side
of the book is empty, `np.array` of the empty list is a 1-D array and
`np.concatenate(..., axis=1)` raises a `ValueError` (axis 1 does not exist),
which the guards model; `self.state` is only assigned after both
concatenations succeed. -/
def Market.resetObs (order_book : OrderBook) : Except PyError (List (List ℚ)) :=
  -- bids = np.array(order_book['bids']); asks = np.array(order_book['asks'])
  let bids := order_book.bids.map (fun e => [e.1, e.2])
  let asks := order_book.asks.map (fun e => [e.1, e.2])
  -- bid_sign = -1*np.ones((len(bids), 1)); ask_sign = np.ones((len(asks), 1))
  let bid_sign := order_book.bids.map (fun _ => [(-1 : ℚ)])
  let ask_sign := order_book.asks.map (fun _ => [(1 : ℚ)])
  if order_book.bids.isEmpty then
    .error (.valueError "axis 1 is out of bounds for array of dimension 1")
  else if order_book.asks.isEmpty then
    .error (.valueError "axis 1 is out of bounds for array of dimension 1")
  else
    let bids_with_sign := np.concatenate_axis1 bids bid_sign
    let asks_with_sign := np.concatenate_axis1 asks ask_sign
    -- bids_with_sign = np.flipud(np.rot90(bids_with_sign, 3))
    let bids_with_sign := np.flipud (np.rot90 bids_with_sign 3)
    -- asks_with_sign = np.rot90(asks_with_sign, 1)
    let asks_with_sign := np.rot90 asks_with_sign 1
    -- self.state = np.concatenate((bids_with_sign, asks_with_sign), axis=1)
    .ok (np.concatenate_axis1 bids_with_sign asks_with_sign)

/-- `Market._reset`: fetch the order book for `self.symbol`, build the signed
array and assign it to `self.state`.  Returns the observation (or the raised
error, in which case the environment object is unchanged), the resulting
environment, and the trace of exchange-API calls made. -/
def Market.reset (ex : Exchange) (m : Market) :
    Except PyError (List (List ℚ)) × Market × List ExchangeCall :=
  let order_book := ex.fetch_order_book m.symbol
  match Market.resetObs order_book with
  | .error e => (.error e, m, [.fetch_order_book m.symbol])
  | .ok M => (.ok M, { m with state := M }, [.fetch_order_book m.symbol])

/-- `Market.__init__(exchange, symbol)`: store the exchange's markets and the
symbol, set `max_amount = 1.0`, build the action space, seed the generator
(`self.seed()`, i.e. `_seed(None)`) and reset.  Returns the constructed
environment (or the error raised during reset) and the trace of exchange-API
calls made. -/
def Market.init (ex : Exchange) (symbol : String) (entropy : ℕ) :
    Except PyError Market × List ExchangeCall :=
  let markets := ex.load_markets
  let max_amount : ℚ := 1
  let action_space : OrderSpace := { max_amount }
  let m0 : Market :=
    { symbol, markets, max_amount, action_space, np_random := 0, state := [] }
  let m1 := (m0.seed none entropy).2
  match Market.reset ex m1 with
  | (.error e, _, calls) => (.error e, .load_markets :: calls)
  | (.ok _, m2, calls) => (.ok m2, .load_markets :: calls)

/-- `Market._step(action)`: the body is `pass`, so the call returns `None` and
assigns nothing.  The would-be result type is the gym tuple
(observation, reward, done). -/
def Market.step (m : Market) (_action : List SampleElem) :
    Except PyError (Option (List (List ℚ) × ℚ × Bool)) × Market :=
  (.ok none, m)

/-- The (empty) `DRQN` agent object: `__init__` is `pass`. -/
structure DRQN where
deriving DecidableEq, Repr

/-- `DRQN.train(n_epochs, batch_size)`: the body is `pass`. -/
def DRQN.train (_d : DRQN) (_n_epochs _batch_size : ℕ) :
    Except PyError (Option Unit) :=
  .ok none

/-- `DRQN.play(n_epochs)`: the body is `pass`. -/
def DRQN.play (_d : DRQN) (_n_epochs : ℕ) :
    Except PyError (Option Unit) :=
  .ok none

deriving instance DecidableEq for Except

/-- The `(row 0, row 1, row 2)` entries of column `j` of an observation
array: one labeled order-book entry, read top to bottom. -/
def colTriple (M : List (List ℚ)) (j : ℕ) : ℚ × ℚ × ℚ :=
  ((M.getD 0 []).getD j 0, (M.getD 1 []).getD j 0, (M.getD 2 []).getD j 0)

/-- The entry layout the spec claims for the observation array: every column
is a labeled order-book entry reading (price, quantity, side-sign) top to
bottom, with bids labeled `-1` and asks labeled `+1`. -/
def specLayoutPriceQtySign (ob : OrderBook) (M : List (List ℚ)) : Prop :=
  ∀ j < ob.bids.length + ob.asks.length,
    (∃ e ∈ ob.bids, colTriple M j = (e.1, e.2, -1)) ∨
    (∃ e ∈ ob.asks, colTriple M j = (e.1, e.2, 1))

instance (ob : OrderBook) (M : List (List ℚ)) :
    Decidable (specLayoutPriceQtySign ob M) := by
  unfold specLayoutPriceQtySign
  infer_instance

/-- The entry layout the code produces: every column is a labeled order-book
entry reading (side-sign, quantity, price) top to bottom. -/
def codeLayoutSignQtyPrice (ob : OrderBook) (M : List (List ℚ)) : Prop :=
  ∀ j < ob.bids.length + ob.asks.length,
    (∃ e ∈ ob.bids, colTriple M j = (-1, e.2, e.1)) ∨
    (∃ e ∈ ob.asks, colTriple M j = (1, e.2, e.1))

instance (ob : OrderBook) (M : List (List ℚ)) :
    Decidable (codeLayoutSignQtyPrice ob M) := by
  unfold codeLayoutSignQtyPrice
  infer_instance

/-- A one-bid, one-ask order book used as concrete input. -/
def obExample : OrderBook := ⟨[(2, 5)], [(3, 7)]⟩

/-- A two-bid (descending prices), two-ask (ascending prices) order book. -/
def obExample2 : OrderBook := ⟨[(3, 4), (2, 5)], [(6, 1), (7, 2)]⟩

/-- An exchange whose `fetch_order_book` always returns `obExample`. -/
def exExample : Exchange := ⟨["BTC/USD"], fun _ => obExample⟩

/-- An exchange whose order book has no bids. -/
def exEmptyBids : Exchange := ⟨["BTC/USD"], fun _ => ⟨[], [(3, 7)]⟩⟩

/-- A concrete environment value. -/
def mktExample : Market := ⟨"BTC/USD", ["BTC/USD"], 1, ⟨1⟩, 0, []⟩

/-- A second concrete environment value with different attributes and a
different prior state. -/
def mktExample2 : Market := ⟨"BTC/USD", [], 2, ⟨2⟩, 5, [[9]]⟩

/-- A concrete action space. -/
def spExample : OrderSpace := ⟨1⟩

/-- Concrete random draws for `OrderSpace.sample`. -/
def drawsExample : SampleDraws := ⟨true, true, true, 0, 0⟩

/-! ### Characterisation of the `_reset` array computation -/

theorem rot90_three (m : List (List ℚ)) : np.rot90 m 3 = npTranspose m.reverse := rfl

theorem rot90_one (m : List (List ℚ)) : np.rot90 m 1 = (npTranspose m).reverse := rfl

theorem zipWith_append_map {α : Type} (l : List α) (f g : α → List ℚ) :
    List.zipWith (· ++ ·) (l.map f) (l.map g) = l.map (fun x => f x ++ g x) := by
  induction l with
  | nil => rfl
  | cons x xs ih => simp [ih]

theorem npTranspose_triples (l : List (ℚ × ℚ)) (hl : l ≠ [])
    (f g h : ℚ × ℚ → ℚ) :
    npTranspose (l.map (fun e => [f e, g e, h e])) = [l.map f, l.map g, l.map h] := by
  obtain ⟨x, xs, rfl⟩ := List.exists_cons_of_ne_nil hl
  have hr : List.range 3 = [0, 1, 2] := rfl
  simp [npTranspose, colAt, hr, List.map_map]

theorem npTranspose_entries (l : List (ℚ × ℚ)) (c : ℚ) (hl : l ≠ []) :
    npTranspose (l.map (fun e => [e.1, e.2, c])) =
      [l.map Prod.fst, l.map Prod.snd, l.map (fun _ => c)] := by
  obtain ⟨x, xs, rfl⟩ := List.exists_cons_of_ne_nil hl
  have hr : List.range 3 = [0, 1, 2] := rfl
  simp [npTranspose, colAt, hr, List.map_map]
  have hc : ((fun r : List ℚ => r[2]?.getD 0) ∘ fun e : ℚ × ℚ => [e.1, e.2, c])
      = fun _ => c := rfl
  rw [hc, List.map_const']

theorem resetObs_cons (b a : ℚ × ℚ) (bs as : List (ℚ × ℚ)) :
    Market.resetObs ⟨b :: bs, a :: as⟩ =
      .ok [(b :: bs).reverse.map (fun _ => (-1 : ℚ)) ++ (a :: as).map (fun _ => (1 : ℚ)),
           (b :: bs).reverse.map Prod.snd ++ (a :: as).map Prod.snd,
           (b :: bs).reverse.map Prod.fst ++ (a :: as).map Prod.fst] := by
  have hbr : (b :: bs).reverse ≠ [] := by simp
  unfold Market.resetObs
  rw [if_neg (by simp), if_neg (by simp)]
  unfold np.concatenate_axis1 np.flipud
  dsimp only
  rw [zipWith_append_map, zipWith_append_map, rot90_three, rot90_one]
  simp only [List.cons_append, List.nil_append]
  have hmap : ((b :: bs).map (fun e => [e.1, e.2, (-1 : ℚ)])).reverse
      = (b :: bs).reverse.map (fun e => [e.1, e.2, (-1 : ℚ)]) := by
    simp
  rw [hmap, npTranspose_entries _ _ hbr, npTranspose_entries _ _ (by simp)]
  simp [List.zipWith]



theorem colTriple_rows (r0 r1 r2 : List ℚ) (j : ℕ) :
    colTriple [r0, r1, r2] j = (r0.getD j 0, r1.getD j 0, r2.getD j 0) := rfl

theorem getD_append_map_left (l₁ l₂ : List (ℚ × ℚ)) (f g : ℚ × ℚ → ℚ) (j : ℕ)
    (h : j < l₁.length) :
    (l₁.map f ++ l₂.map g).getD j 0 = f (l₁.getD j (0, 0)) := by
  rw [List.getD_append _ _ _ _ (by simpa using h),
      List.getD_eq_getElem _ _ (by simpa using h), List.getElem_map,
      List.getD_eq_getElem _ _ h]

theorem getD_append_map_right (l₁ l₂ : List (ℚ × ℚ)) (f g : ℚ × ℚ → ℚ) (j : ℕ)
    (h : j < l₂.length) :
    (l₁.map f ++ l₂.map g).getD (l₁.length + j) 0 = g (l₂.getD j (0, 0)) := by
  rw [List.getD_append_right _ _ _ _ (by simp)]
  simp only [List.length_map, Nat.add_sub_cancel_left]
  rw [List.getD_eq_getElem _ _ (by simpa using h), List.getElem_map,
      List.getD_eq_getElem _ _ h]

/-- C1 counterexample: on the order book with one bid `[2, 5]` and one ask
`[3, 7]`, `_reset` returns `[[-1, 1], [5, 7], [2, 3]]`, whose columns read
(side-sign, quantity, price) — no column reads (price, quantity, side-sign)
as the claim states. -/
theorem C1_counterexample :
    Market.resetObs obExample = .ok [[-1, 1], [5, 7], [2, 3]] ∧
    ¬ specLayoutPriceQtySign obExample [[-1, 1], [5, 7], [2, 3]] := by
  constructor
  · decide
  · decide

/-- C1 (amended): for every order book with non-empty bids and asks, the array
returned by `Market._reset` labels every bid entry with side-sign `-1` and
every ask entry with side-sign `+1`, and each labeled entry (column) consists
of (side-sign, quantity, price) in that order; bid columns appear in reversed
bid order followed by the ask columns in ask order. -/
theorem C1_reset_columns (ob : OrderBook) (hb : ob.bids ≠ []) (ha : ob.asks ≠ []) :
    ∃ M, Market.resetObs ob = .ok M ∧
      (∀ j, j < ob.bids.length →
        colTriple M j =
          (-1, (ob.bids.reverse.getD j (0, 0)).2, (ob.bids.reverse.getD j (0, 0)).1)) ∧
      (∀ j, j < ob.asks.length →
        colTriple M (ob.bids.length + j) =
          (1, (ob.asks.getD j (0, 0)).2, (ob.asks.getD j (0, 0)).1)) ∧
      codeLayoutSignQtyPrice ob M := by
  obtain ⟨bids, asks⟩ := ob
  simp only at hb ha ⊢
  obtain ⟨b, bs, rfl⟩ := List.exists_cons_of_ne_nil hb
  obtain ⟨a, as, rfl⟩ := List.exists_cons_of_ne_nil ha
  have hbid : ∀ j, j < (b :: bs).length →
      colTriple
        [(b :: bs).reverse.map (fun _ => (-1 : ℚ)) ++ (a :: as).map (fun _ => (1 : ℚ)),
         (b :: bs).reverse.map Prod.snd ++ (a :: as).map Prod.snd,
         (b :: bs).reverse.map Prod.fst ++ (a :: as).map Prod.fst] j =
        (-1, ((b :: bs).reverse.getD j (0, 0)).2, ((b :: bs).reverse.getD j (0, 0)).1) := by
    intro j hj
    have hj' : j < (b :: bs).reverse.length := by simpa using hj
    rw [colTriple_rows, getD_append_map_left _ _ _ _ _ hj',
        getD_append_map_left _ _ _ _ _ hj', getD_append_map_left _ _ _ _ _ hj']
  have hask : ∀ j, j < (a :: as).length →
      colTriple
        [(b :: bs).reverse.map (fun _ => (-1 : ℚ)) ++ (a :: as).map (fun _ => (1 : ℚ)),
         (b :: bs).reverse.map Prod.snd ++ (a :: as).map Prod.snd,
         (b :: bs).reverse.map Prod.fst ++ (a :: as).map Prod.fst]
        ((b :: bs).length + j) =
        (1, ((a :: as).getD j (0, 0)).2, ((a :: as).getD j (0, 0)).1) := by
    intro j hj
    have hlen : (b :: bs).length + j = (b :: bs).reverse.length + j := by simp
    rw [hlen, colTriple_rows, getD_append_map_right _ _ _ _ _ hj,
        getD_append_map_right _ _ _ _ _ hj, getD_append_map_right _ _ _ _ _ hj]
  refine ⟨_, resetObs_cons b a bs as, hbid, hask, ?_⟩
  intro j hj
  rcases Nat.lt_or_ge j (b :: bs).length with hjn | hjn
  · left
    have hj' : j < (b :: bs).reverse.length := by simpa using hjn
    refine ⟨(b :: bs).reverse.getD j (0, 0), ?_, ?_⟩
    · rw [List.getD_eq_getElem _ _ hj']
      exact List.mem_reverse.mp (List.getElem_mem hj')
    · exact hbid j hjn
  · right
    have hj' : j - (b :: bs).length < (a :: as).length := by
      simp only [List.length_cons] at hj hjn ⊢
      omega
    refine ⟨(a :: as).getD (j - (b :: bs).length) (0, 0), ?_, ?_⟩
    · rw [List.getD_eq_getElem _ _ hj']
      exact List.getElem_mem hj'
    · have hres := hask (j - (b :: bs).length) hj'
      rwa [show (b :: bs).length + (j - (b :: bs).length) = j by omega] at hres

/-- Witness for C1 (amended) at the concrete order book `obExample`. -/
theorem C1_witness :
    ∃ M, Market.resetObs obExample = .ok M ∧ codeLayoutSignQtyPrice obExample M := by
  obtain ⟨M, h1, _, _, h4⟩ := C1_reset_columns obExample (by decide) (by decide)
  exact ⟨M, h1, h4⟩

/-- C2: for every fetched order book with `n ≥ 1` bids and `m ≥ 1` asks, the
array returned by `Market._reset` has shape `(3, n + m)`: three rows, each
with one entry per order-book entry. -/
theorem C2_reset_shape (ob : OrderBook) (hb : ob.bids ≠ []) (ha : ob.asks ≠ []) :
    ∃ M, Market.resetObs ob = .ok M ∧ M.length = 3 ∧
      ∀ row ∈ M, row.length = ob.bids.length + ob.asks.length := by
  obtain ⟨bids, asks⟩ := ob
  simp only at hb ha ⊢
  obtain ⟨b, bs, rfl⟩ := List.exists_cons_of_ne_nil hb
  obtain ⟨a, as, rfl⟩ := List.exists_cons_of_ne_nil ha
  refine ⟨_, resetObs_cons b a bs as, rfl, ?_⟩
  intro row hrow
  simp only [List.mem_cons, List.not_mem_nil, or_false] at hrow
  rcases hrow with rfl | rfl | rfl <;> simp <;> omega

/-- Witness for C2 at the concrete order book `obExample`. -/
theorem C2_witness :
    ∃ M, Market.resetObs obExample = .ok M ∧ M.length = 3 ∧
      ∀ row ∈ M, row.length = obExample.bids.length + obExample.asks.length :=
  C2_reset_shape obExample (by decide) (by decide)

/-- C3: two invocations of `Market._reset` in which `fetch_order_book`
returns the same order book produce the same returned observation, whatever
the environments looked like before the calls, and when the observation is an
array both environments end with that array as their `state`. -/
theorem C3_reset_depends_only_on_order_book (ex₁ ex₂ : Exchange) (m₁ m₂ : Market)
    (h : ex₁.fetch_order_book m₁.symbol = ex₂.fetch_order_book m₂.symbol) :
    (Market.reset ex₁ m₁).1 = (Market.reset ex₂ m₂).1 ∧
    ∀ M, (Market.reset ex₁ m₁).1 = .ok M →
      (Market.reset ex₁ m₁).2.1.state = M ∧ (Market.reset ex₂ m₂).2.1.state = M := by
  cases hres : Market.resetObs (ex₂.fetch_order_book m₂.symbol) with
  | error e => simp [Market.reset, h, hres]
  | ok M =>
    refine ⟨by simp [Market.reset, h, hres], ?_⟩
    intro M' hM'
    have hMM : M = M' := by
      simp [Market.reset, h, hres] at hM'
      exact hM'
    subst hMM
    constructor <;> simp [Market.reset, h, hres]

/-- Witness for C3: two environments with different prior attributes and
states, reset against the same exchange response. -/
theorem C3_witness :
    (Market.reset exExample mktExample).1 = (Market.reset exExample mktExample2).1 :=
  (C3_reset_depends_only_on_order_book exExample exExample mktExample mktExample2 rfl).1

/-- C4 counterexample: `Market._step` does not raise a "not implemented"
signal — its body is `pass`, so it returns `None`. -/
theorem C4_counterexample :
    (Market.step mktExample []).1 = .ok none ∧
    (Market.step mktExample []).1 ≠ .error .notImplementedError := by
  refine ⟨rfl, ?_⟩
  decide

/-- C4 (amended): `OrderSpace.contains`, `OrderSpace.to_jsonable` and
`OrderSpace.from_jsonable` raise `NotImplementedError` when called, while the
other unimplemented methods — `Market._step`, `DRQN.train` and `DRQN.play` —
are `pass` stubs that return `None` without raising. -/
theorem C4_stub_methods (sp : OrderSpace) (x : List SampleElem)
    (sn : List (List SampleElem)) (s : String) (m : Market) (a : List SampleElem)
    (d : DRQN) (n₁ n₂ n₃ : ℕ) :
    sp.contains x = .error .notImplementedError ∧
    sp.to_jsonable sn = .error .notImplementedError ∧
    sp.from_jsonable s = .error .notImplementedError ∧
    (Market.step m a).1 = .ok none ∧
    DRQN.train d n₁ n₂ = .ok none ∧
    DRQN.play d n₃ = .ok none :=
  ⟨rfl, rfl, rfl, rfl, rfl, rfl⟩

/-- C5: `Market._step` performs no state transition: it returns `None` and
leaves the environment object, including `self.state`, unchanged. -/
theorem C5_step_no_effect (m : Market) (a : List SampleElem) :
    (Market.step m a).1 = .ok none ∧ (Market.step m a).2 = m :=
  ⟨rfl, rfl⟩

/-- C6: `Market._seed(seed)` stores the generator produced by the seeding
call in `self.np_random` and returns the one-element list of the seed used;
for a non-None seed the returned list is `[seed]` and the generator is the
one built from that seed. -/
theorem C6_seed (m : Market) (seed : Option ℕ) (entropy s : ℕ) :
    (Market.seed m seed entropy).2 =
      { m with np_random := (seeding.np_random seed entropy).1 } ∧
    (Market.seed m seed entropy).1 = [(seeding.np_random seed entropy).2] ∧
    (seed = some s → Market.seed m seed entropy = ([s], { m with np_random := s })) := by
  refine ⟨rfl, rfl, ?_⟩
  rintro rfl
  rfl

/-- Witness for C6 at seed `41`. -/
theorem C6_witness :
    Market.seed mktExample (some 41) 0 = ([41], { mktExample with np_random := 41 }) :=
  (C6_seed mktExample (some 41) 0 41).2.2 rfl

/-- C7 counterexample: `Market.__init__` also invokes `exchange.load_markets()`,
which is not a `fetch_order_book` call, so `fetch_order_book` is not the only
exchange-API method invoked. -/
theorem C7_counterexample :
    (Market.init exExample "BTC/USD" 0).2 =
      [ExchangeCall.load_markets, ExchangeCall.fetch_order_book "BTC/USD"] ∧
    ((Market.init exExample "BTC/USD" 0).2).all ExchangeCall.is_fetch_order_book = false := by
  constructor
  · decide
  · decide

/-- C7 (amended): the exchange-API calls made are `load_markets()` — exactly
once, during `Market.__init__` — and `fetch_order_book(symbol)` with the
configured symbol — exactly once per `Market._reset` (including the reset run
by `__init__`); besides the generic seeding call, no other exchange method is
invoked. -/
theorem C7_exchange_calls (ex : Exchange) (m : Market) (symbol : String) (entropy : ℕ) :
    (Market.reset ex m).2.2 = [ExchangeCall.fetch_order_book m.symbol] ∧
    (Market.init ex symbol entropy).2 =
      [ExchangeCall.load_markets, ExchangeCall.fetch_order_book symbol] := by
  constructor
  · cases hres : Market.resetObs (ex.fetch_order_book m.symbol) with
    | error e => simp [Market.reset, hres]
    | ok M => simp [Market.reset, hres]
  · cases hres : Market.resetObs (ex.fetch_order_book symbol) with
    | error e => simp [Market.init, Market.reset, Market.seed, seeding.np_random, hres]
    | ok M => simp [Market.init, Market.reset, Market.seed, seeding.np_random, hres]

/-- C8: when the bids are sorted by descending price, the asks by ascending
price, and every bid price is at most every ask price, the price row (row 2)
of the `_reset` array is ascending, with the bid columns (in reversed bid
order) preceding the ask columns. -/
theorem C8_price_row_sorted (ob : OrderBook) (hb : ob.bids ≠ []) (ha : ob.asks ≠ [])
    (hbd : (ob.bids.map Prod.fst).Pairwise (· ≥ ·))
    (had : (ob.asks.map Prod.fst).Pairwise (· ≤ ·))
    (hcross : ∀ x ∈ ob.bids, ∀ y ∈ ob.asks, x.1 ≤ y.1) :
    ∃ M, Market.resetObs ob = .ok M ∧
      M.getD 2 [] = (ob.bids.map Prod.fst).reverse ++ ob.asks.map Prod.fst ∧
      (M.getD 2 []).Pairwise (· ≤ ·) := by
  obtain ⟨bids, asks⟩ := ob
  simp only at hb ha hbd had hcross ⊢
  obtain ⟨b, bs, rfl⟩ := List.exists_cons_of_ne_nil hb
  obtain ⟨a, as, rfl⟩ := List.exists_cons_of_ne_nil ha
  have hrow : (b :: bs).reverse.map Prod.fst = ((b :: bs).map Prod.fst).reverse :=
    List.map_reverse _ _
  refine ⟨_, resetObs_cons b a bs as, ?_, ?_⟩
  · show (b :: bs).reverse.map Prod.fst ++ (a :: as).map Prod.fst = _
    rw [hrow]
  · show ((b :: bs).reverse.map Prod.fst ++ (a :: as).map Prod.fst).Pairwise (· ≤ ·)
    rw [List.pairwise_append]
    refine ⟨?_, had, ?_⟩
    · rw [hrow, List.pairwise_reverse]
      exact hbd
    · intro p hp q hq
      rw [hrow, List.mem_reverse] at hp
      obtain ⟨x, hx, rfl⟩ := List.mem_map.mp hp
      obtain ⟨y, hy, rfl⟩ := List.mem_map.mp hq
      exact hcross x hx y hy

/-- Witness for C8 at a two-bid, two-ask order book with sorted sides. -/
theorem C8_witness :
    ∃ M, Market.resetObs obExample2 = .ok M ∧
      M.getD 2 [] = (obExample2.bids.map Prod.fst).reverse ++ obExample2.asks.map Prod.fst ∧
      (M.getD 2 []).Pairwise (· ≤ ·) :=
  C8_price_row_sorted obExample2 (by decide) (by decide) (by decide) (by decide)
    (by decide)

/-- `side_sign['buy'] = -1`. -/
theorem side_sign_buy : ((OrderSpace.side_sign.lookup "buy").getD 0 : ℚ) = -1 := rfl

/-- `side_sign['sell'] = 1`. -/
theorem side_sign_sell : ((OrderSpace.side_sign.lookup "sell").getD 0 : ℚ) = 1 := rfl

/-- C9: for `max_amount ≥ 0` and any draws of the underlying generators,
`OrderSpace.sample` returns a five-element list
`[place_order, type, side, amount, price]` with `amount ∈ [0, max_amount]`,
`price ∈ [-1, 0)` when `side` is `'buy'` and `price ∈ (0, 1]` when `side` is
`'sell'`; the sign of `price` matches `side_sign[side]`. -/
theorem C9_sample_ranges (sp : OrderSpace) (d : SampleDraws)
    (hmax : 0 ≤ sp.max_amount)
    (hu0 : 0 ≤ d.uniform_amount) (hu1 : d.uniform_amount < 1)
    (hr0 : 0 ≤ d.random_sample) (hr1 : d.random_sample < 1) :
    ∃ po ty side amount price,
      sp.sample d =
        [.boolVal po, .strVal ty, .strVal side, .numVal amount, .numVal price] ∧
      (sp.sample d).length = 5 ∧
      0 ≤ amount ∧ amount ≤ sp.max_amount ∧
      ((side = "buy" ∧ -1 ≤ price ∧ price < 0) ∨
       (side = "sell" ∧ 0 < price ∧ price ≤ 1)) ∧
      0 < ((OrderSpace.side_sign.lookup side).getD 0) * price := by
  have hbound : sp.max_amount * d.uniform_amount ≤ sp.max_amount :=
    calc sp.max_amount * d.uniform_amount
        ≤ sp.max_amount * 1 := mul_le_mul_of_nonneg_left hu1.le hmax
      _ = sp.max_amount := mul_one _
  cases hside : d.choice_side with
  | true =>
    refine ⟨d.choice_place_order, if d.choice_type then "market" else "limit", "buy",
      sp.max_amount * d.uniform_amount, (-1 : ℚ) * (1 - d.random_sample),
      ?_, rfl, mul_nonneg hmax hu0, hbound, ?_, ?_⟩
    · simp [OrderSpace.sample, hside, side_sign_buy]
    · left
      refine ⟨rfl, ?_, ?_⟩ <;> nlinarith
    · rw [side_sign_buy]
      nlinarith
  | false =>
    refine ⟨d.choice_place_order, if d.choice_type then "market" else "limit", "sell",
      sp.max_amount * d.uniform_amount, (1 : ℚ) * (1 - d.random_sample),
      ?_, rfl, mul_nonneg hmax hu0, hbound, ?_, ?_⟩
    · simp [OrderSpace.sample, hside, side_sign_sell]
    · right
      refine ⟨rfl, ?_, ?_⟩ <;> nlinarith
    · rw [side_sign_sell]
      nlinarith

/-- Witness for C9 at concrete draws. -/
theorem C9_witness :
    ∃ po ty side amount price,
      spExample.sample drawsExample =
        [.boolVal po, .strVal ty, .strVal side, .numVal amount, .numVal price] ∧
      (spExample.sample drawsExample).length = 5 ∧
      0 ≤ amount ∧ amount ≤ spExample.max_amount ∧
      ((side = "buy" ∧ -1 ≤ price ∧ price < 0) ∨
       (side = "sell" ∧ 0 < price ∧ price ≤ 1)) ∧
      0 < ((OrderSpace.side_sign.lookup side).getD 0) * price :=
  C9_sample_ranges spExample drawsExample (by decide) (by decide) (by decide)
    (by decide) (by decide)

theorem resetObs_isOk (ob : OrderBook) :
    (Market.resetObs ob).isOk = true ↔ ob.bids ≠ [] ∧ ob.asks ≠ [] := by
  obtain ⟨bids, asks⟩ := ob
  cases bids with
  | nil => simp [Market.resetObs, Except.isOk, Except.toBool]
  | cons b bs =>
    cases asks with
    | nil => simp [Market.resetObs, Except.isOk, Except.toBool]
    | cons a as => simp [resetObs_cons, Except.isOk, Except.toBool]

/-- C10: `Market._reset` succeeds exactly when the fetched order book has at
least one bid and at least one ask; when either side is empty the
concatenation raises an error and the environment — in particular its
previous `state` — is left unchanged. -/
theorem C10_reset_requires_nonempty_book (ex : Exchange) (m : Market) :
    ((Market.reset ex m).1.isOk = true ↔
      ((ex.fetch_order_book m.symbol).bids ≠ [] ∧
       (ex.fetch_order_book m.symbol).asks ≠ [])) ∧
    (((ex.fetch_order_book m.symbol).bids = [] ∨
      (ex.fetch_order_book m.symbol).asks = []) →
      ∃ e, (Market.reset ex m).1 = .error e ∧ (Market.reset ex m).2.1 = m) := by
  have hkey := resetObs_isOk (ex.fetch_order_book m.symbol)
  cases hres : Market.resetObs (ex.fetch_order_book m.symbol) with
  | error e =>
    rw [hres] at hkey
    constructor
    · simpa [Market.reset, hres] using hkey
    · intro _
      exact ⟨e, by simp [Market.reset, hres], by simp [Market.reset, hres]⟩
  | ok M =>
    rw [hres] at hkey
    constructor
    · simpa [Market.reset, hres] using hkey
    · intro hemp
      exfalso
      rcases hkey.mp (by simp [Except.isOk, Except.toBool]) with ⟨h1, h2⟩
      rcases hemp with h | h
      · exact h1 h
      · exact h2 h

/-- Witness for C10: resetting against an exchange whose book has no bids
raises and leaves the environment unchanged. -/
theorem C10_witness :
    ∃ e, (Market.reset exEmptyBids mktExample2).1 = .error e ∧
      (Market.reset exEmptyBids mktExample2).2.1 = mktExample2 :=
  (C10_reset_requires_nonempty_book exEmptyBids mktExample2).2 (Or.inl rfl)
